import Mathlib

/-!
Process shell of the Sony camera API server (`src/app/main.cpp`).

A shallow embedding of `main` and `signal_handler`.  The program is modelled by the
sequence of externally visible calls it makes (`Event`).  The vendor SDK
(`SCRSDK::Init`, `SCRSDK::Release`) and the HTTP server class `api::API` are declared in
headers that are not part of the embedded source, so what those calls do (the value
returned by `Init`, whether the constructor and `start` return, throw or block) is a
parameter of the model (`World`).  `std::stoi` is modelled after the C++ standard
(`strtol` in base 10 followed by the `int` range check).  Console output other than the
invalid-port warning is not modelled; `Init`, `Release` and `stop` are taken to return.
The handlers stay installed until the process is gone, so a shutdown signal can also
be handled after `main` has returned, during exit processing; the handler then sees
the global `server` as `main` left it (its destruction is not modelled).
-/

namespace SonyCameraApi

/-! ## `std::stoi` -/

/-- Exceptions that can travel through `main`.  `invalid_argument` and `out_of_range`
are the two exceptions `std::stoi` throws; `std_exception` stands for any other class
derived from `std::exception`; `foreign` for a thrown object of any other type. -/
inductive Exn where
  | invalid_argument
  | out_of_range
  | std_exception
  | foreign
  deriving DecidableEq, Repr

/-- Whether `catch (const std::exception&)` matches the exception. -/
def Exn.isStdException : Exn → Bool
  | .invalid_argument => true
  | .out_of_range => true
  | .std_exception => true
  | .foreign => false

/-- The function `isspace` in the "C" locale: space, and `\t \n \v \f \r` (9 to 13). -/
def isspace (c : Char) : Bool := c.toNat == 32 || (9 ≤ c.toNat && c.toNat ≤ 13)

/-- The function `isdigit`: the characters `0` to `9`. -/
def isdigit (c : Char) : Bool := 48 ≤ c.toNat && c.toNat ≤ 57

/-- Value of a decimal digit character. -/
def digitValue (c : Char) : Nat := c.toNat - 48

/-- Value of a run of decimal digits, most significant first. -/
def digitsValue (ds : List Char) : Nat := ds.foldl (fun acc c => 10 * acc + digitValue c) 0

/-- Optional sign accepted by `strtol`: returns whether it is a minus, and the rest. -/
def stripSign : List Char → Bool × List Char
  | [] => (false, [])
  | c :: rest =>
    if c = '-' then (true, rest)
    else if c = '+' then (false, rest)
    else (false, c :: rest)

/-- The subject sequence of `strtol` in base 10: leading white space is skipped, an
optional sign is read, then the longest run of digits.  Whatever follows is ignored. -/
def subjectDigits (s : List Char) : List Char :=
  (stripSign (s.dropWhile isspace)).2.takeWhile isdigit

/-- The mathematical value of the subject sequence of `strtol`. -/
def subjectValue (s : List Char) : Int :=
  if (stripSign (s.dropWhile isspace)).1 then -(digitsValue (subjectDigits s) : Int)
  else (digitsValue (subjectDigits s) : Int)

/-- Smallest value of a 32-bit `int`. -/
def INT_MIN : Int := -2147483648

/-- Largest value of a 32-bit `int`. -/
def INT_MAX : Int := 2147483647

/-- The call `std::stoi(str)` with the default arguments (`pos = nullptr`, `base = 10`):
throws `std::invalid_argument` when no conversion can be performed and
`std::out_of_range` when the value does not fit an `int`; otherwise returns the value of
the leading integer, ignoring trailing characters. -/
def stoi (str : String) : Except Exn Int :=
  if subjectDigits str.data = [] then .error .invalid_argument
  else if subjectValue str.data < INT_MIN ∨ INT_MAX < subjectValue str.data then
    .error .out_of_range
  else .ok (subjectValue str.data)

/-! ## Events and the environment -/

/-- The server object `api::API`, identified by the port it was constructed with. -/
structure API where
  port : Int
  deriving DecidableEq, Repr

/-- Calls and control transfers of the program that the properties speak about. -/
inductive Event where
  /-- Line 35: the warning "Invalid port number. Using default: 8080". -/
  | warnInvalidPort
  /-- Line 40: the call `SCRSDK::Init()` together with the value it returned. -/
  | sdkInit (ok : Bool)
  /-- Line 17 or 43: the call `SCRSDK::Release()`. -/
  | sdkRelease
  /-- Line 64: the constructor `api::API(port)` is entered. -/
  | construct (port : Int)
  /-- Line 64: the constructed object is stored in the global `server`. -/
  | assign (api : API)
  /-- Line 65: the call `server->start()`. -/
  | start
  /-- Line 13: the call `server->stop()`. -/
  | stop
  /-- Lines 44, 68, 71: `main` returns the code.  Exit processing follows, and the
  process ends with that code unless a handler calls `exit` first. -/
  | ret (code : Int)
  /-- Line 19: the call `exit(code)`. -/
  | exit (code : Int)
  /-- An exception left `main`: `std::terminate` is called and aborts the process. -/
  | terminate
  deriving DecidableEq, Repr

/-- What a call into `api::API` does. -/
inductive Outcome where
  | returns
  | throws (e : Exn)
  | blocks
  deriving DecidableEq, Repr

/-- Behaviour of the code outside `main.cpp`. -/
structure World where
  /-- Value returned by `SCRSDK::Init()`. -/
  initResult : Bool
  /-- Outcome of the constructor `api::API(port)`. -/
  ctor : Outcome
  /-- Outcome of `server->start()`. -/
  start : Outcome
  deriving DecidableEq, Repr

/-- The shutdown signals for which `main` installs `signal_handler` (lines 25-26). -/
inductive ShutdownSignal where
  | SIGINT
  | SIGTERM
  deriving DecidableEq, Repr

/-! ## `signal_handler` and `main` -/

/-- Lines 9-20: `if (server) server->stop(); SCRSDK::Release(); exit(0);`. -/
def signal_handler (_signal : ShutdownSignal) (server : Option API) : List Event :=
  (match server with
    | some _ => [Event.stop]
    | none => []) ++ [Event.sdkRelease, Event.exit 0]

/-- Lines 28-38: the port is 8080 unless `argc > 1`, in which case it is
`std::stoi(argv[1])`, or 8080 with a warning when that throws a `std::exception`.
An exception the `catch` clause does not match would propagate. -/
def parsePort (argv : List String) : Except Exn (Int × List Event) :=
  match argv with
  | _ :: arg :: _ =>
    match stoi arg with
    | .ok v => .ok (v, [])
    | .error e =>
      if e.isStdException then .ok (8080, [Event.warnInvalidPort]) else .error e
  | _ => .ok (8080, [])

/-- Lines 66-69: `catch (const std::exception&)` returns 1; anything else escapes. -/
def serverCatch (e : Exn) : List Event :=
  if e.isStdException then [Event.ret 1] else [Event.terminate]

/-- Lines 63-71: construct the server, store it in `server`, start it. -/
def serverBlock (port : Int) (w : World) : List Event :=
  Event.construct port ::
    match w.ctor with
    | .blocks => []
    | .throws e => serverCatch e
    | .returns =>
      Event.assign ⟨port⟩ :: Event.start ::
        match w.start with
        | .blocks => []
        | .throws e => serverCatch e
        | .returns => [Event.ret 0]

/-- Lines 22-72, after the handlers are installed: the events of `main` when no signal
is delivered.  `argv` is the argument vector (`argc` is its length). -/
def main (argv : List String) (w : World) : List Event :=
  match parsePort argv with
  | .error _ => [Event.terminate]
  | .ok (port, out) =>
    out ++ Event.sdkInit w.initResult ::
      (if !w.initResult then [Event.sdkRelease, Event.ret 1]
       else serverBlock port w)

/-! ## The process: `main` with an asynchronous shutdown signal -/

/-- Events after which `main` no longer runs. -/
def Event.isFinal : Event → Bool
  | .ret _ => true
  | .exit _ => true
  | .terminate => true
  | _ => false

/-- Value of the global `server` after the given events: empty until line 64 stores
the constructed object. -/
def serverPtr (tr : List Event) : Option API :=
  tr.findSome? fun e =>
    match e with
    | .assign a => some a
    | _ => none

/-- A shutdown signal delivered to the process once `main` has performed `after`
events.  When `after` is the number of events of `main` or more, the signal arrives
after the last of them: while `main` is blocked in `start`, or, when `main` has
returned, during the exit processing that follows. -/
structure Delivery where
  signal : ShutdownSignal
  after : Nat
  deriving DecidableEq, Repr

/-- The events of the process.  Without a signal (`none`, which also stands for a signal
that comes when the process is gone) they are those of `main`.  A delivered signal
interrupts the process after `after` events of `main`: `signal_handler` runs on the
value `server` has at that moment and ends the process with `exit(0)`.  The handlers
of lines 25-26 are never uninstalled, so this holds after `main` has returned too. -/
def run (argv : List String) (w : World) : Option Delivery → List Event
  | none => main argv w
  | some d =>
    (main argv w).take d.after
      ++ signal_handler d.signal (serverPtr ((main argv w).take d.after))

/-- Exit code of the process: that of the last `return` from `main` or call of `exit`
among its events, when it ended by one of them. -/
def exitCode (tr : List Event) : Option Int :=
  match tr.getLast? with
  | some (.ret c) => some c
  | some (.exit c) => some c
  | _ => none

/-- The ports with which the constructor `api::API` was called. -/
def constructedPorts (tr : List Event) : List Int :=
  tr.filterMap fun e =>
    match e with
    | .construct p => some p
    | _ => none

/-- The spec's notion of a valid port argument: the whole string is a decimal integer
between 1 and 65535. -/
def isPortNumeral (s : String) : Bool :=
  !s.data.isEmpty && s.data.all isdigit
    && decide (1 ≤ digitsValue s.data) && decide (digitsValue s.data ≤ 65535)

/-- Whether constructing or starting the server raises an error that the `catch` clause
of `main` handles (one derived from `std::exception`). -/
def World.raisesStd (w : World) : Bool :=
  match w.ctor with
  | .throws e => e.isStdException
  | .blocks => false
  | .returns =>
    match w.start with
    | .throws e => e.isStdException
    | _ => false

/-! ## Camera session state machine -/

theorem isdigit_digitChar (m : Nat) (h : m < 10) :
    isdigit (Nat.digitChar m) = true ∧ digitValue (Nat.digitChar m) = m := by
  interval_cases m <;> decide

theorem digitsValue_append_singleton (ds : List Char) (c : Char) :
    digitsValue (ds ++ [c]) = 10 * digitsValue ds + digitValue c := by
  simp [digitsValue, List.foldl_append]

theorem toDigitsCore_decimal (fuel : Nat) :
    ∀ (n : Nat) (ds : List Char), n < fuel →
      ∃ pre, Nat.toDigitsCore 10 fuel n ds = pre ++ ds ∧ pre ≠ [] ∧
        (∀ c ∈ pre, isdigit c = true) ∧ digitsValue pre = n := by
  induction fuel with
  | zero => intro n ds h; omega
  | succ fuel ih =>
    intro n ds h
    have hd := isdigit_digitChar (n % 10) (Nat.mod_lt _ (by decide))
    by_cases h0 : n / 10 = 0
    · refine ⟨[Nat.digitChar (n % 10)], ?_, by simp, ?_, ?_⟩
      · simp [Nat.toDigitsCore, h0]
      · intro c hc
        simp only [List.mem_singleton] at hc
        rw [hc]; exact hd.1
      · have : digitsValue [Nat.digitChar (n % 10)] = digitValue (Nat.digitChar (n % 10)) := by
          simp [digitsValue]
        rw [this, hd.2]; omega
    · obtain ⟨pre, hpre, _, hall, hval⟩ := ih (n / 10) (Nat.digitChar (n % 10) :: ds) (by omega)
      refine ⟨pre ++ [Nat.digitChar (n % 10)], ?_, by simp, ?_, ?_⟩
      · simp [Nat.toDigitsCore, h0, hpre]
      · intro c hc
        rcases List.mem_append.1 hc with hc | hc
        · exact hall c hc
        · simp only [List.mem_singleton] at hc
          rw [hc]; exact hd.1
      · rw [digitsValue_append_singleton, hval, hd.2]; omega

theorem isspace_of_isdigit (c : Char) (h : isdigit c = true) : isspace c = false := by
  simp only [isdigit, Bool.and_eq_true, decide_eq_true_eq] at h
  simp only [isspace, Bool.or_eq_false_iff, beq_eq_false_iff_ne, Bool.and_eq_false_imp,
    decide_eq_true_eq, decide_eq_false_iff_not]
  omega

theorem stripSign_of_isdigit (c : Char) (t : List Char) (h : isdigit c = true) :
    stripSign (c :: t) = (false, c :: t) := by
  have h1 : c ≠ '-' := by rintro rfl; exact absurd h (by decide)
  have h2 : c ≠ '+' := by rintro rfl; exact absurd h (by decide)
  simp [stripSign, h1, h2]

/-- On a non-empty run of digits `strtol` reads the whole string, without a sign. -/
theorem subject_of_digits (ds : List Char) (hne : ds ≠ [])
    (hall : ∀ c ∈ ds, isdigit c = true) :
    subjectDigits ds = ds ∧ subjectValue ds = (digitsValue ds : Int) := by
  obtain ⟨c, t, rfl⟩ := List.exists_cons_of_ne_nil hne
  have hc : isdigit c = true := hall c (List.mem_cons_self _ _)
  have hdrop : (c :: t).dropWhile isspace = c :: t := by
    simp [List.dropWhile, isspace_of_isdigit c hc]
  have htake : (c :: t).takeWhile isdigit = c :: t :=
    List.takeWhile_eq_self_iff.2 hall
  have hsub : subjectDigits (c :: t) = c :: t := by
    simp only [subjectDigits, hdrop, stripSign_of_isdigit c t hc, htake]
  refine ⟨hsub, ?_⟩
  simp only [subjectValue, hdrop, stripSign_of_isdigit c t hc, hsub]
  simp

/-- The call `std::stoi` reads back the decimal representation of a natural number
that fits an `int`. -/
theorem stoi_repr (n : Nat) (h : n ≤ 2147483647) : stoi (Nat.repr n) = .ok (n : Int) := by
  obtain ⟨pre, hpre, hne, hall, hval⟩ := toDigitsCore_decimal (n + 1) n [] (by omega)
  have hdata : (Nat.repr n).data = pre := by
    simp [Nat.repr, Nat.toDigits, List.asString, hpre]
  obtain ⟨hsub, hv⟩ := subject_of_digits pre hne hall
  unfold stoi
  rw [hdata, hsub, hv, hval, if_neg hne, if_neg]
  simp only [INT_MIN, INT_MAX]
  omega

/-! ## Shape of `main` and of the process runs -/

/-- Every exception thrown by `std::stoi` derives from `std::exception`. -/
theorem stoi_error_isStd (str : String) (e : Exn) (h : stoi str = .error e) :
    e.isStdException = true := by
  unfold stoi at h
  split at h
  · cases h; rfl
  · split at h
    · cases h; rfl
    · cases h

theorem parsePort_ok (argv : List String) :
    ∃ port out, parsePort argv = .ok (port, out) ∧ (out = [] ∨ out = [Event.warnInvalidPort]) := by
  unfold parsePort
  split
  · rename_i arg _
    cases hs : stoi arg with
    | ok v => exact ⟨v, [], rfl, Or.inl rfl⟩
    | error e =>
      simp only [stoi_error_isStd arg e hs, if_true]
      exact ⟨8080, _, rfl, Or.inr rfl⟩
  · exact ⟨8080, [], rfl, Or.inl rfl⟩

theorem main_of_parsePort (argv : List String) (w : World) (port : Int) (out : List Event)
    (h : parsePort argv = .ok (port, out)) :
    main argv w = out ++ Event.sdkInit w.initResult ::
      (if !w.initResult then [Event.sdkRelease, Event.ret 1] else serverBlock port w) := by
  simp only [main, h]

theorem constructedPorts_serverBlock (port : Int) (w : World) :
    constructedPorts (serverBlock port w) = [port] := by
  unfold serverBlock serverCatch
  cases w.ctor <;> cases w.start <;> simp [constructedPorts] <;> split <;> simp

theorem constructedPorts_main (argv : List String) (w : World) (port : Int) (out : List Event)
    (h : parsePort argv = .ok (port, out)) (hout : out = [] ∨ out = [Event.warnInvalidPort]) :
    constructedPorts (main argv w) = if w.initResult then [port] else [] := by
  rw [main_of_parsePort argv w port out h]
  have hb := constructedPorts_serverBlock port w
  unfold constructedPorts at hb ⊢
  rcases hout with rfl | rfl <;> cases hi : w.initResult <;> simp [hb]

theorem run_some (argv : List String) (w : World) (d : Delivery) :
    run argv w (some d) = (main argv w).take d.after
      ++ signal_handler d.signal (serverPtr ((main argv w).take d.after)) := rfl

theorem mem_signal_handler (sig : ShutdownSignal) (server : Option API) (e : Event)
    (h : e ∈ signal_handler sig server) :
    e = Event.stop ∨ e = Event.sdkRelease ∨ e = Event.exit 0 := by
  unfold signal_handler at h
  cases server <;> simp at h <;> tauto

/-- The ports passed to the constructor in a run are among those of `main`. -/
theorem constructedPorts_run (argv : List String) (w : World) (d : Option Delivery) (p : Int)
    (hp : p ∈ constructedPorts (run argv w d)) : p ∈ constructedPorts (main argv w) := by
  cases d with
  | none => exact hp
  | some d =>
    rw [run_some] at hp
    simp only [constructedPorts, List.mem_filterMap, List.mem_append] at hp ⊢
    obtain ⟨e, he, hpe⟩ := hp
    rcases he with he | he
    · exact ⟨e, List.mem_of_mem_take he, hpe⟩
    · rcases mem_signal_handler d.signal _ e he with rfl | rfl | rfl <;> simp at hpe

/-! ## Occurrences of an event in `main` and in a run -/

/-- An event that occurs in `out ++ a :: rest`, is not `a` and does not occur in `out`
occurs in `rest`, after all of `out ++ [a]`. -/
theorem append_cons_split (out : List Event) (a e : Event) (rest pre post : List Event)
    (hne : e ≠ a) (hout : e ∉ out) (h : out ++ a :: rest = pre ++ e :: post) :
    ∃ mid, pre = out ++ a :: mid ∧ rest = mid ++ e :: post := by
  induction out generalizing pre with
  | nil =>
    cases pre with
    | nil =>
      simp only [List.nil_append, List.cons.injEq] at h
      exact absurd h.1.symm hne
    | cons b pre =>
      simp only [List.nil_append, List.cons_append, List.cons.injEq] at h
      exact ⟨pre, by rw [h.1]; rfl, h.2⟩
  | cons o out ih =>
    cases pre with
    | nil =>
      simp only [List.cons_append, List.nil_append, List.cons.injEq] at h
      exact absurd (h.1 ▸ List.mem_cons_self _ _) hout
    | cons b pre =>
      simp only [List.cons_append, List.cons.injEq] at h
      obtain ⟨mid, hmid, hrest⟩ := ih pre (fun hm => hout (List.mem_cons_of_mem _ hm)) h.2
      exact ⟨mid, by rw [h.1, hmid]; rfl, hrest⟩

/-- The events `main` can perform. -/
theorem mem_main (argv : List String) (w : World) (e : Event) (h : e ∈ main argv w) :
    e = Event.warnInvalidPort ∨ e = Event.sdkInit w.initResult ∨
    (w.initResult = false ∧ (e = Event.sdkRelease ∨ e = Event.ret 1)) ∨
    (w.initResult = true ∧ e ∈ serverBlock (parsePort argv |>.toOption |>.map Prod.fst
      |>.getD 8080) w) := by
  obtain ⟨port, out, hp, hout⟩ := parsePort_ok argv
  rw [main_of_parsePort argv w port out hp] at h
  simp only [hp, Except.toOption, Option.map, Option.getD]
  rcases List.mem_append.1 h with h | h
  · rcases hout with rfl | rfl
    · simp at h
    · simp only [List.mem_singleton] at h
      exact Or.inl h
  · rcases List.mem_cons.1 h with h | h
    · exact Or.inr (Or.inl h)
    · cases hi : w.initResult <;> rw [hi] at h <;> simp at h
      · exact Or.inr (Or.inr (Or.inl ⟨rfl, h⟩))
      · exact Or.inr (Or.inr (Or.inr ⟨rfl, h⟩))

/-- The events of the `try` block: the constructor call, the assignment to `server`,
`start`, and the return or abort that ends it. -/
theorem mem_serverBlock (port : Int) (w : World) (e : Event) (h : e ∈ serverBlock port w) :
    e = Event.construct port ∨ e = Event.assign ⟨port⟩ ∨ e = Event.start ∨
    e = Event.ret 0 ∨ e = Event.ret 1 ∨ e = Event.terminate := by
  obtain ⟨r, c, st⟩ := w
  rcases c with _ | (_ | _ | _ | _) | _ <;> rcases st with _ | (_ | _ | _ | _) | _ <;>
    simp [serverBlock, serverCatch, Exn.isStdException] at h <;> tauto

theorem stop_not_mem_main (argv : List String) (w : World) : Event.stop ∉ main argv w := by
  intro h
  rcases mem_main argv w _ h with h | h | ⟨_, h | h⟩ | ⟨_, h⟩
  · cases h
  · cases h
  · cases h
  · cases h
  · rcases mem_serverBlock _ w _ h with h | h | h | h | h | h <;> cases h

/-- The call `SCRSDK::Release()` occurs in `main` only when `SCRSDK::Init()` failed. -/
theorem release_mem_main (argv : List String) (w : World)
    (h : Event.sdkRelease ∈ main argv w) : w.initResult = false := by
  rcases mem_main argv w _ h with h | h | ⟨hi, _⟩ | ⟨_, h⟩
  · cases h
  · cases h
  · exact hi
  · rcases mem_serverBlock _ w _ h with h | h | h | h | h | h <;> cases h

/-- When `SCRSDK::Init()` failed `main` neither constructs, stores nor starts a server. -/
theorem no_server_of_init_failure (argv : List String) (w : World)
    (hi : w.initResult = false) (e : Event) (h : e ∈ main argv w) :
    e ≠ Event.start ∧ ∀ p, e ≠ Event.construct p ∧ e ≠ Event.assign ⟨p⟩ := by
  rcases mem_main argv w _ h with h | h | ⟨_, h | h⟩ | ⟨ht, _⟩
  · subst h; simp
  · subst h; simp
  · subst h; simp
  · subst h; simp
  · rw [hi] at ht; cases ht

theorem serverPtr_eq_none_iff (tr : List Event) :
    serverPtr tr = none ↔ ∀ a, Event.assign a ∉ tr := by
  unfold serverPtr
  rw [List.findSome?_eq_none_iff]
  constructor
  · intro h a ha
    have := h _ ha
    simp at this
  · intro h e he
    cases e <;> simp
    exact absurd he (h _)

/-- Where an event of a run comes from: from `main`, with the same events before it,
or from the signal handler, after the events `main` performed before the signal. -/
theorem run_split (argv : List String) (w : World) (d : Option Delivery) (e : Event)
    (pre post : List Event) (h : run argv w d = pre ++ e :: post) :
    (∃ post', main argv w = pre ++ e :: post') ∨
    (∃ dl h1, d = some dl ∧
      pre = (main argv w).take dl.after ++ h1 ∧
      signal_handler dl.signal (serverPtr ((main argv w).take dl.after))
        = h1 ++ e :: post) := by
  cases d with
  | none => exact Or.inl ⟨post, h⟩
  | some dl =>
    rw [run_some] at h
    rcases List.append_eq_append_iff.1 h with ⟨a', ha, hb⟩ | ⟨c', hc, hd⟩
    · exact Or.inr ⟨dl, a', rfl, ha, hb⟩
    · cases c' with
      | nil =>
        refine Or.inr ⟨dl, [], rfl, ?_, ?_⟩
        · simpa using hc.symm
        · simpa using hd.symm
      | cons x c' =>
        simp only [List.cons_append, List.cons.injEq] at hd
        left
        refine ⟨c' ++ (main argv w).drop dl.after, ?_⟩
        conv_lhs => rw [← List.take_append_drop dl.after (main argv w), hc]
        simp [hd.1]

/-- The events of a run are events of `main` or of the signal handler. -/
theorem mem_run (argv : List String) (w : World) (d : Option Delivery) (e : Event)
    (he : e ∈ run argv w d) :
    e ∈ main argv w ∨ e = Event.stop ∨ e = Event.sdkRelease ∨ e = Event.exit 0 := by
  cases d with
  | none => exact Or.inl he
  | some dl =>
    rw [run_some] at he
    rcases List.mem_append.1 he with he | he
    · exact Or.inl (List.mem_of_mem_take he)
    · exact Or.inr (mem_signal_handler _ _ e he)

/-! ## Port parsing (C1, C2, C3) -/

/-- C1: for every command line, port parsing in `main` lets no exception escape and
does not end the process: it yields a port, its only possible output is the warning,
and the events of `main` continue with the call `SCRSDK::Init()`. -/
theorem C1_port_parsing_reaches_init (argv : List String) (w : World) :
    ∃ port out rest, parsePort argv = .ok (port, out) ∧
      out.any Event.isFinal = false ∧
      main argv w = out ++ Event.sdkInit w.initResult :: rest := by
  obtain ⟨port, out, hp, hout⟩ := parsePort_ok argv
  refine ⟨port, out, _, hp, ?_, main_of_parsePort argv w port out hp⟩
  rcases hout with rfl | rfl <;> rfl

/-- C2, refuted as stated: the arguments `80abc`, `-5`, `70000` and `0` are not decimal
integers between 1 and 65535, yet the port passed to the constructor is 80, -5, 70000
and 0, not 8080. -/
theorem C2_counterexample :
    (isPortNumeral "80abc" = false ∧
      constructedPorts (main ["server", "80abc"] ⟨true, .returns, .blocks⟩) = [80]) ∧
    (isPortNumeral "-5" = false ∧
      constructedPorts (main ["server", "-5"] ⟨true, .returns, .blocks⟩) = [-5]) ∧
    (isPortNumeral "70000" = false ∧
      constructedPorts (main ["server", "70000"] ⟨true, .returns, .blocks⟩) = [70000]) ∧
    (isPortNumeral "0" = false ∧
      constructedPorts (main ["server", "0"] ⟨true, .returns, .blocks⟩) = [0]) := by
  decide

/-- C2, amended: when `std::stoi` rejects `argv[1]`, that is, when after optional
leading white space and an optional sign it does not start with a decimal digit, or
the value of its leading integer is outside the range of `int`, `main` warns and falls
back to the default: every port passed to the constructor is 8080, and the constructor
is called with 8080 when `SCRSDK::Init()` succeeds. -/
theorem C2_fallback_when_stoi_throws (prog arg : String) (rest : List String) (w : World)
    (hbad : subjectDigits arg.data = [] ∨
      subjectValue arg.data < INT_MIN ∨ INT_MAX < subjectValue arg.data) :
    parsePort (prog :: arg :: rest) = .ok (8080, [Event.warnInvalidPort]) ∧
    (w.initResult = true → constructedPorts (main (prog :: arg :: rest) w) = [8080]) ∧
    (∀ d, ∀ p ∈ constructedPorts (run (prog :: arg :: rest) w d), p = 8080) := by
  have hstoi : ∃ e, stoi arg = .error e ∧ e.isStdException = true := by
    unfold stoi
    rcases hbad with h | h
    · exact ⟨_, if_pos h, rfl⟩
    · by_cases h0 : subjectDigits arg.data = []
      · exact ⟨_, if_pos h0, rfl⟩
      · refine ⟨.out_of_range, ?_, rfl⟩
        rw [if_neg h0, if_pos h]
  obtain ⟨e, he, hstd⟩ := hstoi
  have hp : parsePort (prog :: arg :: rest) = .ok (8080, [Event.warnInvalidPort]) := by
    simp only [parsePort, he, hstd, if_true]
  have hc := constructedPorts_main (prog :: arg :: rest) w 8080 _ hp (Or.inr rfl)
  refine ⟨hp, ?_, ?_⟩
  · intro hi
    rw [hc, hi]; rfl
  · intro d p hpm
    have := constructedPorts_run _ w d p hpm
    rw [hc] at this
    cases hi : w.initResult <;> rw [hi] at this <;> simp at this
    exact this

/-- Witness of `C2_fallback_when_stoi_throws`: the non-numeric argument `abc`. -/
theorem C2_fallback_witness :
    subjectDigits "abc".data = [] ∧
    parsePort ["server", "abc"] = .ok (8080, [Event.warnInvalidPort]) ∧
    constructedPorts (main ["server", "abc"] ⟨true, .returns, .blocks⟩) = [8080] :=
  ⟨by decide,
    (C2_fallback_when_stoi_throws "server" "abc" [] ⟨true, .returns, .blocks⟩
      (Or.inl (by decide))).1,
    (C2_fallback_when_stoi_throws "server" "abc" [] ⟨true, .returns, .blocks⟩
      (Or.inl (by decide))).2.1 rfl⟩

/-- C3: with no positional argument (`argc <= 1`) the port passed to the constructor is
8080; when `argv[1]` is the canonical decimal representation of `n` with
`1 <= n <= 65535`, the port passed to the constructor is exactly `n`. -/
theorem C3_default_and_canonical_port (argv : List String) (w : World) :
    (argv.length ≤ 1 →
      parsePort argv = .ok (8080, []) ∧
      (w.initResult = true → constructedPorts (main argv w) = [8080]) ∧
      (∀ d, ∀ p ∈ constructedPorts (run argv w d), p = 8080)) ∧
    (∀ (n : Nat) (prog : String) (rest : List String), 1 ≤ n → n ≤ 65535 →
      argv = prog :: Nat.repr n :: rest →
      parsePort argv = .ok ((n : Int), []) ∧
      (w.initResult = true → constructedPorts (main argv w) = [(n : Int)]) ∧
      (∀ d, ∀ p ∈ constructedPorts (run argv w d), p = (n : Int))) := by
  have key : ∀ port : Int, parsePort argv = .ok (port, []) →
      parsePort argv = .ok (port, []) ∧
      (w.initResult = true → constructedPorts (main argv w) = [port]) ∧
      (∀ d, ∀ p ∈ constructedPorts (run argv w d), p = port) := by
    intro port hp
    have hc := constructedPorts_main argv w port _ hp (Or.inl rfl)
    refine ⟨hp, ?_, ?_⟩
    · intro hi
      rw [hc, hi]; rfl
    · intro d p hpm
      have := constructedPorts_run _ w d p hpm
      rw [hc] at this
      cases hi : w.initResult <;> rw [hi] at this <;> simp at this
      exact this
  constructor
  · intro hlen
    apply key
    match argv, hlen with
    | [], _ => rfl
    | [_], _ => rfl
    | _ :: _ :: _, h => simp at h
  · intro n prog rest h1 h2 hargv
    apply key
    subst hargv
    simp only [parsePort, stoi_repr n (by omega)]

/-- Witness of `C3_default_and_canonical_port`: no argument, and the argument `9000`. -/
theorem C3_default_and_canonical_port_witness :
    (["server"].length ≤ 1 ∧
      constructedPorts (main ["server"] ⟨true, .returns, .blocks⟩) = [8080]) ∧
    (["server", "9000"] = ["server", Nat.repr 9000] ∧
      constructedPorts (main ["server", "9000"] ⟨true, .returns, .blocks⟩) = [9000]) :=
  ⟨⟨by decide, ((C3_default_and_canonical_port ["server"] ⟨true, .returns, .blocks⟩).1
      (by decide)).2.1 rfl⟩,
    ⟨by decide,
      ((C3_default_and_canonical_port ["server", "9000"] ⟨true, .returns, .blocks⟩).2
        9000 "server" [] (by decide) (by decide) (by decide)).2.1 rfl⟩⟩

/-! ## Exit code (C4) -/

theorem exitCode_signal_handler (tr : List Event) (sig : ShutdownSignal)
    (server : Option API) : exitCode (tr ++ signal_handler sig server) = some 0 := by
  cases server <;> simp [exitCode, signal_handler]

theorem exitCode_main (argv : List String) (w : World) :
    (exitCode (main argv w) = some 1 ↔ (w.initResult = false ∨ w.raisesStd = true)) ∧
    (w.initResult = true → w.ctor = .returns → w.start = .returns →
      exitCode (main argv w) = some 0) ∧
    (∀ c, exitCode (main argv w) = some c → c = 0 ∨ c = 1) := by
  obtain ⟨port, out, hp, hout⟩ := parsePort_ok argv
  rw [main_of_parsePort argv w port out hp]
  obtain ⟨r, c, st⟩ := w
  rcases hout with rfl | rfl <;> cases r <;>
    rcases c with _ | (_ | _ | _ | _) | _ <;> rcases st with _ | (_ | _ | _ | _) | _ <;>
    simp [exitCode, serverBlock, serverCatch, World.raisesStd, Exn.isStdException]

/-- C4, refuted as stated: `SCRSDK::Init()` fails and a SIGINT arrives right after it,
before `main` returns; the handler ends the process with exit code 0, not 1.  The same
happens when the SIGTERM arrives after `main` has returned 1, during exit processing.
And when the constructor of the server throws an object that is not a
`std::exception`, nothing catches it: the process is aborted and has no exit code 1. -/
theorem C4_counterexample :
    (run ["server"] ⟨false, .returns, .returns⟩ (some ⟨.SIGINT, 1⟩)
        = [Event.sdkInit false, Event.sdkRelease, Event.exit 0] ∧
      exitCode (run ["server"] ⟨false, .returns, .returns⟩ (some ⟨.SIGINT, 1⟩)) = some 0) ∧
    (run ["server"] ⟨false, .returns, .returns⟩ (some ⟨.SIGTERM, 3⟩)
        = [Event.sdkInit false, Event.sdkRelease, Event.ret 1, Event.sdkRelease,
            Event.exit 0] ∧
      exitCode (run ["server"] ⟨false, .returns, .returns⟩ (some ⟨.SIGTERM, 3⟩)) = some 0) ∧
    (run ["server"] ⟨true, .throws .foreign, .returns⟩ none
        = [Event.sdkInit true, Event.construct 8080, Event.terminate] ∧
      exitCode (run ["server"] ⟨true, .throws .foreign, .returns⟩ none) = none) := by
  decide

/-- C4, amended: the exit code is 1 if and only if no shutdown signal is handled while
the process exists, neither during `main` nor in the exit processing after `main` has
returned, and either `SCRSDK::Init()` fails or constructing or starting the server
raises an error derived from `std::exception`; whenever a signal is handled, and
whenever `start` returns normally, the exit code is 0; no run ends with any other exit
code. -/
theorem C4_exit_code (argv : List String) (w : World) (d : Option Delivery) :
    (exitCode (run argv w d) = some 1 ↔
      d = none ∧ (w.initResult = false ∨ w.raisesStd = true)) ∧
    (∀ dl, d = some dl → exitCode (run argv w d) = some 0) ∧
    (w.initResult = true → w.ctor = .returns → w.start = .returns →
      exitCode (run argv w d) = some 0) ∧
    (∀ c, exitCode (run argv w d) = some c → c = 0 ∨ c = 1) := by
  have hm := exitCode_main argv w
  cases d with
  | none => exact ⟨by simpa [run] using hm.1, by simp, hm.2.1, hm.2.2⟩
  | some dl =>
    rw [run_some, exitCode_signal_handler]
    simp

/-- Witness of `C4_exit_code`: a SIGTERM handled after `main` has returned 1 gives exit
code 0, and a normal return of `start` without a signal gives exit code 0. -/
theorem C4_exit_code_witness :
    exitCode (run ["server"] ⟨false, .returns, .blocks⟩ (some ⟨.SIGTERM, 3⟩)) = some 0 ∧
    exitCode (run ["server"] ⟨true, .returns, .returns⟩ none) = some 0 :=
  ⟨(C4_exit_code ["server"] ⟨false, .returns, .blocks⟩ (some ⟨.SIGTERM, 3⟩)).2.1
      ⟨.SIGTERM, 3⟩ rfl,
    (C4_exit_code ["server"] ⟨true, .returns, .returns⟩ none).2.2.1 rfl rfl rfl⟩

/-! ## SDK lifecycle (C5, C6) -/

/-- C5, the code at the failing inputs: when the constructor of the server throws a
`std::exception`, and when `start` returns normally, `main` returns without any call
of `SCRSDK::Release()`, although `SCRSDK::Init()` was called. -/
theorem C5_release_missing :
    (run ["server"] ⟨true, .throws .std_exception, .returns⟩ none
        = [Event.sdkInit true, Event.construct 8080, Event.ret 1] ∧
      (run ["server"] ⟨true, .throws .std_exception, .returns⟩ none).count
        Event.sdkRelease = 0) ∧
    (run ["server"] ⟨true, .returns, .returns⟩ none
        = [Event.sdkInit true, Event.construct 8080, Event.assign ⟨8080⟩, Event.start,
            Event.ret 0] ∧
      (run ["server"] ⟨true, .returns, .returns⟩ none).count Event.sdkRelease = 0) := by
  decide

/-- C6, the code at the failing inputs: a SIGINT delivered before `SCRSDK::Init()` is
called makes the handler call `SCRSDK::Release()` with no `Init` before it; a SIGTERM
delivered after the release of the init-failure path, before `main` returns, makes the
handler call `SCRSDK::Release()` a second time. -/
theorem C6_release_unguarded :
    run ["server"] ⟨true, .returns, .blocks⟩ (some ⟨.SIGINT, 0⟩)
      = [Event.sdkRelease, Event.exit 0] ∧
    run ["server"] ⟨false, .returns, .blocks⟩ (some ⟨.SIGTERM, 2⟩)
      = [Event.sdkInit false, Event.sdkRelease, Event.sdkRelease, Event.exit 0] := by
  decide

/-! ## Shutdown order (C7, C10) and start-up order (C8) -/

/-- C7: when the handler runs while `server` is set it calls `server->stop()`, then
`SCRSDK::Release()`, then `exit(0)`; and in every run, whenever `SCRSDK::Release()` is
called while `server` is set, `server->stop()` has been called before it. -/
theorem C7_stop_before_release (argv : List String) (w : World) (d : Option Delivery) :
    (∀ sig api, signal_handler sig (some api)
      = [Event.stop, Event.sdkRelease, Event.exit 0]) ∧
    (∀ dl api, d = some dl →
      serverPtr ((main argv w).take dl.after) = some api →
      run argv w d = (main argv w).take dl.after
        ++ [Event.stop, Event.sdkRelease, Event.exit 0] ∧
      exitCode (run argv w d) = some 0) ∧
    (∀ pre post, run argv w d = pre ++ Event.sdkRelease :: post →
      serverPtr pre ≠ none → Event.stop ∈ pre) := by
  refine ⟨fun _ _ => rfl, ?_, ?_⟩
  · intro dl api hd hs
    subst hd
    have hr := run_some argv w dl
    refine ⟨by rw [hr, hs]; rfl, ?_⟩
    rw [hr, exitCode_signal_handler]
  · intro pre post h hsrv
    rcases run_split argv w d _ pre post h with ⟨post', hm⟩ | ⟨dl, h1, _, hpre, hsh⟩
    · exfalso
      apply hsrv
      have hi : w.initResult = false := release_mem_main argv w (by rw [hm]; simp)
      rw [serverPtr_eq_none_iff]
      intro a ha
      have := (no_server_of_init_failure argv w hi (Event.assign a)
        (by rw [hm]; exact List.mem_append_left _ ha)).2 a.port
      exact this.2 rfl
    · cases hs : serverPtr ((main argv w).take dl.after) with
      | none =>
        exfalso
        rw [hs] at hsh
        have h1nil : h1 = [] := by
          rcases h1 with _ | ⟨x, _ | ⟨y, t⟩⟩ <;> simp [signal_handler] at hsh ⊢
        apply hsrv
        rw [hpre, h1nil, List.append_nil]
        exact hs
      | some api =>
        rw [hs] at hsh
        have h1stop : h1 = [Event.stop] := by
          rcases h1 with _ | ⟨x, _ | ⟨y, _ | ⟨z, t⟩⟩⟩ <;> simp [signal_handler] at hsh ⊢
          exact hsh.1.symm
        rw [hpre, h1stop]
        simp

/-- Witness of `C7_stop_before_release`: a SIGINT while `start` blocks. -/
theorem C7_stop_before_release_witness :
    run ["server"] ⟨true, .returns, .blocks⟩ (some ⟨.SIGINT, 4⟩)
      = [Event.sdkInit true, Event.construct 8080, Event.assign ⟨8080⟩, Event.start,
          Event.stop] ++ Event.sdkRelease :: [Event.exit 0] ∧
    serverPtr [Event.sdkInit true, Event.construct 8080, Event.assign ⟨8080⟩,
      Event.start, Event.stop] ≠ none ∧
    Event.stop ∈ [Event.sdkInit true, Event.construct 8080, Event.assign ⟨8080⟩,
      Event.start, Event.stop] :=
  ⟨by decide, by decide,
    (C7_stop_before_release ["server"] ⟨true, .returns, .blocks⟩
        (some ⟨.SIGINT, 4⟩)).2.2
      [Event.sdkInit true, Event.construct 8080, Event.assign ⟨8080⟩, Event.start,
        Event.stop]
      [Event.exit 0] (by decide) (by decide)⟩

/-- C8: if `SCRSDK::Init()` returns failure, `main` releases the SDK and returns 1, and
no run constructs, stores or starts the server; in every run in which the constructor
of the server is called, a successful `SCRSDK::Init()` call precedes it. -/
theorem C8_init_failure_aborts (argv : List String) (w : World) :
    (w.initResult = false →
      (∃ out, main argv w = out ++ [Event.sdkInit false, Event.sdkRelease, Event.ret 1]) ∧
      exitCode (main argv w) = some 1 ∧
      (∀ d, ∀ e ∈ run argv w d,
        e ≠ Event.start ∧ ∀ p, e ≠ Event.construct p ∧ e ≠ Event.assign ⟨p⟩)) ∧
    (∀ d pre p post, run argv w d = pre ++ Event.construct p :: post →
      Event.sdkInit true ∈ pre) := by
  constructor
  · intro hi
    refine ⟨?_, (exitCode_main argv w).1.2 (Or.inl hi), ?_⟩
    · obtain ⟨port, out, hp, _⟩ := parsePort_ok argv
      exact ⟨out, by rw [main_of_parsePort argv w port out hp, hi]; rfl⟩
    · intro d e he
      rcases mem_run argv w d e he with h | rfl | rfl | rfl
      · exact no_server_of_init_failure argv w hi e h
      · simp
      · simp
      · simp
  · intro d pre p post h
    rcases run_split argv w d _ pre post h with ⟨post', hm⟩ | ⟨dl, h1, _, _, hsh⟩
    · obtain ⟨port, out, hp, hout⟩ := parsePort_ok argv
      rw [main_of_parsePort argv w port out hp] at hm
      have hnot : Event.construct p ∉ out := by
        rcases hout with rfl | rfl <;> simp
      obtain ⟨mid, hpre, hrest⟩ :=
        append_cons_split out _ _ _ pre post' (by simp) hnot hm
      cases hi : w.initResult with
      | false =>
        rw [hi] at hrest
        have : Event.construct p ∈ [Event.sdkRelease, Event.ret 1] := by
          simp only [Bool.not_false, if_true] at hrest
          rw [hrest]; simp
        simp at this
      | true =>
        rw [hpre, hi]
        simp
    · have : Event.construct p ∈ signal_handler dl.signal
          (serverPtr ((main argv w).take dl.after)) := by rw [hsh]; simp
      rcases mem_signal_handler _ _ _ this with h | h | h <;> cases h

/-- Witness of `C8_init_failure_aborts`: a failing `SCRSDK::Init()` with no argument. -/
theorem C8_init_failure_aborts_witness :
    exitCode (main ["server"] ⟨false, .returns, .returns⟩) = some 1 ∧
    Event.sdkInit true ∈ [Event.sdkInit true] :=
  ⟨((C8_init_failure_aborts ["server"] ⟨false, .returns, .returns⟩).1 rfl).2.1,
    (C8_init_failure_aborts ["server"] ⟨true, .returns, .blocks⟩).2 none
      [Event.sdkInit true] 8080 [Event.assign ⟨8080⟩, Event.start] (by decide)⟩

/-- C10: when the handler runs while `server` is still empty, it makes no call of
`stop`: it calls `SCRSDK::Release()` and `exit(0)`, so the run has no `stop` at all and
the exit code is 0. -/
theorem C10_handler_without_server (argv : List String) (w : World) (dl : Delivery)
    (hs : serverPtr ((main argv w).take dl.after) = none) :
    signal_handler dl.signal none = [Event.sdkRelease, Event.exit 0] ∧
    run argv w (some dl) = (main argv w).take dl.after
      ++ [Event.sdkRelease, Event.exit 0] ∧
    Event.stop ∉ run argv w (some dl) ∧
    exitCode (run argv w (some dl)) = some 0 := by
  have hr := run_some argv w dl
  have hr' : run argv w (some dl) = (main argv w).take dl.after
      ++ [Event.sdkRelease, Event.exit 0] := by rw [hr, hs]; rfl
  refine ⟨rfl, hr', ?_, ?_⟩
  · rw [hr']
    intro hmem
    rcases List.mem_append.1 hmem with hm | hm
    · exact stop_not_mem_main argv w (List.mem_of_mem_take hm)
    · simp at hm
  · rw [hr, exitCode_signal_handler]

/-- Witness of `C10_handler_without_server`: a SIGINT that arrives while the
constructor of the server is running, before `server` is assigned. -/
theorem C10_handler_without_server_witness :
    serverPtr (List.take 2 (main ["server"] ⟨true, .returns, .blocks⟩)) = none ∧
    run ["server"] ⟨true, .returns, .blocks⟩ (some ⟨.SIGINT, 2⟩)
      = List.take 2 (main ["server"] ⟨true, .returns, .blocks⟩)
        ++ [Event.sdkRelease, Event.exit 0] :=
  ⟨by decide,
    (C10_handler_without_server ["server"] ⟨true, .returns, .blocks⟩ ⟨.SIGINT, 2⟩
      (by decide)).2.1⟩

/-! ## Camera session state machine (C9) -/

end SonyCameraApi
